import Mathlib

/-!
Verification development for the Pod-manifest YAML validator.

The repository contains three near-duplicate implementations of the same
validation engine:
  * `Part000`  — the validator in the unnamed source file (struct `Validator`
    with `Errorf`, switch-based dispatch in document encounter order);
  * `MainGo1`  — the first program in `main.go` (global error list,
    `parseMapping` helper producing a key lookup);
  * `MainGo2`  — the second program in `main.go` (struct `Validator`, field
    lookup maps built per mapping, closed-world resource keys).

Each validator routine is translated one-to-one.  Error messages are
represented structurally by the inductive `Msg`; `msgText` reproduces the
exact Go format strings, and `renderErr` reproduces `Errorf` rendering
(`file:line msg` for a positive line, `file msg` for line 0).
-/

/-- Node kinds of the yaml document tree (yaml.Kind). -/
inductive Kind : Type where
| document : Kind
| scalar : Kind
| mapping : Kind
| sequence : Kind
| alias : Kind
deriving DecidableEq

/-- A parsed yaml node: kind tag, 1-based source line, scalar text value,
and the list of children (for a mapping: alternating key/value nodes). -/
inductive Node : Type where
| mk : Kind → Nat → String → List Node → Node

def Node.kind : Node → Kind
| .mk k _ _ _ => k

def Node.line : Node → Nat
| .mk _ l _ _ => l

def Node.value : Node → String
| .mk _ _ v _ => v

def Node.content : Node → List Node
| .mk _ _ _ c => c

/-- The alternating key/value children of a mapping node, paired up.
Mirrors the Go loops `for i := 0; i < len(Content); i += 2`. -/
def toPairs : List Node → List (Node × Node)
| k :: v :: rest => (k, v) :: toPairs rest
| _ => []

/-- Lookup of a key in a pair list with Go map semantics: a later insertion
for the same key text overwrites an earlier one. -/
def lastOcc (ps : List (Node × Node)) (key : String) : Option Node :=
  ps.foldl (fun acc kv => if kv.1.value = key then some kv.2 else acc) none

/-- Structured validation messages; one constructor per Go format string. -/
inductive Msg : Type where
| emptyDocument
| rootMustBeMapping
| apiVersionMustBeString
| apiVersionUnsupported (v : String)
| apiVersionRequired
| kindMustBeString
| kindUnsupported (v : String)
| kindRequired
| metadataMustBeMapping
| metadataRequired
| metadataNameRequired
| nameMustBeString
| nameRequired
| namespaceMustBeString
| labelsMustBeMapping
| labelKeyMustBeString
| labelValueMustBeString
| specMustBeMapping
| specRequired
| specContainersRequired
| osMustBeString
| osUnsupported (v : String)
| containersMustBeSequence
| containerMustBeMapping
| containerNameRequired
| containerImageRequired
| containerResourcesRequired
| containerNameMustBeString
| containerNameInvalidFormat (v : String)
| containerNameNotUnique (v : String)
| imageMustBeString
| imageInvalidFormat (v : String)
| resourcesMustBeMapping
| requirementsMustBeMapping (pfx : String)
| cpuMustBeInteger
| cpuMustBeInt
| cpuMustBeIntegerPfx (pfx : String)
| memoryMustBeString (pfx : String)
| memoryInvalidFormat (pfx : String) (v : String)
| unsupportedResourceType (pfx : String) (key : String)
| portsMustBeSequence
| portMustBeMapping
| containerPortRequired
| containerPortMustBeInteger
| containerPortOutOfRange
| protocolMustBeString
| protocolUnsupported (v : String)
| probeMustBeMapping
| httpGetRequired
| httpGetMustBeMapping
| pathRequired
| pathMustBeString
| pathMustBeAbsolute
| portRequired
| portMustBeInteger
| portOutOfRange

/-- A single quote character, used by the Go format strings. -/
def apos : String := String.singleton (Char.ofNat 39)

/-- The exact message text each `Msg` renders to (the Go format strings). -/
def msgText : Msg → String
| .emptyDocument => "empty document"
| .rootMustBeMapping => "root must be mapping"
| .apiVersionMustBeString => "apiVersion must be string"
| .apiVersionUnsupported v => "apiVersion has unsupported value " ++ apos ++ v ++ apos
| .apiVersionRequired => "apiVersion is required"
| .kindMustBeString => "kind must be string"
| .kindUnsupported v => "kind has unsupported value " ++ apos ++ v ++ apos
| .kindRequired => "kind is required"
| .metadataMustBeMapping => "metadata must be mapping"
| .metadataRequired => "metadata is required"
| .metadataNameRequired => "metadata.name is required"
| .nameMustBeString => "name must be string"
| .nameRequired => "name is required"
| .namespaceMustBeString => "namespace must be string"
| .labelsMustBeMapping => "labels must be mapping"
| .labelKeyMustBeString => "label key must be string"
| .labelValueMustBeString => "label value must be string"
| .specMustBeMapping => "spec must be mapping"
| .specRequired => "spec is required"
| .specContainersRequired => "spec.containers is required"
| .osMustBeString => "os must be string"
| .osUnsupported v => "os has unsupported value " ++ apos ++ v ++ apos
| .containersMustBeSequence => "containers must be sequence"
| .containerMustBeMapping => "container must be mapping"
| .containerNameRequired => "container name is required"
| .containerImageRequired => "container image is required"
| .containerResourcesRequired => "container resources is required"
| .containerNameMustBeString => "container name must be string"
| .containerNameInvalidFormat v => "container name has invalid format " ++ apos ++ v ++ apos
| .containerNameNotUnique v => "container name " ++ apos ++ v ++ apos ++ " is not unique"
| .imageMustBeString => "image must be string"
| .imageInvalidFormat v => "image has invalid format " ++ apos ++ v ++ apos
| .resourcesMustBeMapping => "resources must be mapping"
| .requirementsMustBeMapping pfx => pfx ++ " must be mapping"
| .cpuMustBeInteger => "cpu must be integer"
| .cpuMustBeInt => "cpu must be int"
| .cpuMustBeIntegerPfx pfx => pfx ++ ".cpu must be integer"
| .memoryMustBeString pfx => pfx ++ ".memory must be string"
| .memoryInvalidFormat pfx v => pfx ++ ".memory has invalid format " ++ apos ++ v ++ apos
| .unsupportedResourceType pfx key => pfx ++ "." ++ key ++ " has unsupported resource type"
| .portsMustBeSequence => "ports must be sequence"
| .portMustBeMapping => "port must be mapping"
| .containerPortRequired => "containerPort is required"
| .containerPortMustBeInteger => "containerPort must be integer"
| .containerPortOutOfRange => "containerPort value out of range"
| .protocolMustBeString => "protocol must be string"
| .protocolUnsupported v => "protocol has unsupported value " ++ apos ++ v ++ apos
| .probeMustBeMapping => "probe must be mapping"
| .httpGetRequired => "httpGet is required"
| .httpGetMustBeMapping => "httpGet must be mapping"
| .pathRequired => "path is required"
| .pathMustBeString => "path must be string"
| .pathMustBeAbsolute => "path must be absolute path"
| .portRequired => "port is required"
| .portMustBeInteger => "port must be integer"
| .portOutOfRange => "port value out of range"

/-- A recorded diagnostic before rendering: the line passed to `Errorf`
(0 meaning no specific line) and the structured message. -/
structure Err : Type where
  line : Nat
  msg : Msg

/-- The rendering performed by `Errorf` / `ValidationError.String`:
`file:line msg` when line is positive, else `file msg`. -/
def renderErr (filename : String) (e : Err) : String :=
  if e.line > 0 then filename ++ ":" ++ toString e.line ++ " " ++ msgText e.msg
  else filename ++ " " ++ msgText e.msg

/-- Lowercase ascii letter test, the character class `[a-z]`. -/
def isLower (c : Char) : Bool :=
  decide ('a' ≤ c) && decide (c ≤ 'z')

/-- Recognizer state of the regex `^[a-z]+(_[a-z]+)*$` after a lowercase
letter has just been read: accepts `([a-z]|_[a-z])*`. -/
def snakeAux : List Char → Bool
| [] => true
| [c] => isLower c
| c :: d :: rest =>
  if c = '_' then isLower d && snakeAux rest
  else isLower c && snakeAux (d :: rest)

/-- The snake-case regex `^[a-z]+(_[a-z]+)*$` used by validateContainerName. -/
def matchSnake (s : String) : Bool :=
  match s.data with
  | [] => false
  | c :: rest => isLower c && snakeAux rest

/-- The memory-quantity regex `^\d+(Gi|Mi|Ki)$`. -/
def matchMemory (s : String) : Bool :=
  let ds := s.data.takeWhile Char.isDigit
  let rest := s.data.drop ds.length
  !ds.isEmpty && (rest = ['G', 'i'] || rest = ['M', 'i'] || rest = ['K', 'i'])

/-- Ascii alphanumeric, the character class `[a-zA-Z0-9]`. -/
def isAlnum (c : Char) : Bool :=
  isLower c || (decide ('A' ≤ c) && decide (c ≤ 'Z')) || c.isDigit

/-- The character class `[a-zA-Z0-9_.-]` of the image regex. -/
def isWordChar (c : Char) : Bool :=
  isAlnum c || c = '_' || c = '.' || c = '-'

/-- The image regex
`^registry\.bigbrother\.io/[a-zA-Z0-9][a-zA-Z0-9_.-]+:[a-zA-Z0-9_.-]+$`. -/
def matchImage (s : String) : Bool :=
  let host := "registry.bigbrother.io/".data
  if host.isPrefixOf s.data then
    match s.data.drop host.length with
    | [] => false
    | c0 :: rest =>
      let mid := rest.takeWhile (fun c => c ≠ ':')
      let tail := rest.drop mid.length
      isAlnum c0 && !mid.isEmpty && mid.all isWordChar &&
        (match tail with
         | ':' :: tag => !tag.isEmpty && tag.all isWordChar
         | _ => false)
  else false

/-- Signed 64-bit lower bound of the Go `int` type. -/
def int64Min : Int := -(2 ^ 63)

/-- Signed 64-bit upper bound of the Go `int` type. -/
def int64Max : Int := 2 ^ 63 - 1

/-- Reject values outside the 64-bit range, as strconv.Atoi does (ErrRange). -/
def clamp64 (v : Int) : Option Int :=
  if v < int64Min ∨ v > int64Max then none else some v

/-- Value of a nonempty all-digit character list, else none. -/
def digitsVal (cs : List Char) : Option Nat :=
  if cs.isEmpty then none
  else if cs.all Char.isDigit then
    some (cs.foldl (fun a c => a * 10 + (c.toNat - 48)) 0)
  else none

/-- strconv.Atoi: an optional sign followed by one or more base-10 digits,
rejecting anything else and values outside the 64-bit int range. -/
def atoi (s : String) : Option Int :=
  match s.data with
  | '+' :: cs => (digitsVal cs).bind fun n => clamp64 (Int.ofNat n)
  | '-' :: cs => (digitsVal cs).bind fun n => clamp64 (-(Int.ofNat n))
  | cs => (digitsVal cs).bind fun n => clamp64 (Int.ofNat n)

namespace Part000

def validateAPIVersion (node : Node) : List Err :=
  if node.kind ≠ Kind.scalar then [⟨node.line, .apiVersionMustBeString⟩]
  else if node.value ≠ "v1" then [⟨node.line, .apiVersionUnsupported node.value⟩]
  else []

def validateKind (node : Node) : List Err :=
  if node.kind ≠ Kind.scalar then [⟨node.line, .kindMustBeString⟩]
  else if node.value ≠ "Pod" then [⟨node.line, .kindUnsupported node.value⟩]
  else []

def validateName (node : Node) : List Err :=
  if node.kind ≠ Kind.scalar then [⟨node.line, .nameMustBeString⟩]
  else if node.value = "" then [⟨node.line, .nameRequired⟩]
  else []

def validateLabels (node : Node) : List Err :=
  if node.kind ≠ Kind.mapping then [⟨node.line, .labelsMustBeMapping⟩]
  else ((toPairs node.content).map fun kv =>
    (if kv.1.kind ≠ Kind.scalar then [⟨kv.1.line, Msg.labelKeyMustBeString⟩] else []) ++
    (if kv.2.kind ≠ Kind.scalar then [⟨kv.2.line, Msg.labelValueMustBeString⟩] else [])).flatten

def validateMetadata (node : Node) : List Err :=
  if node.kind ≠ Kind.mapping then [⟨node.line, .metadataMustBeMapping⟩]
  else
    ((toPairs node.content).map fun kv =>
      match kv.1.value with
      | "namespace" =>
        if kv.2.kind ≠ Kind.scalar then [⟨kv.2.line, Msg.namespaceMustBeString⟩] else []
      | "labels" => validateLabels kv.2
      | _ => []).flatten
    ++ (match lastOcc (toPairs node.content) "name" with
        | none => [⟨0, Msg.metadataNameRequired⟩]
        | some n => validateName n)

def validateOS (node : Node) : List Err :=
  if node.kind ≠ Kind.scalar then [⟨node.line, .osMustBeString⟩]
  else if node.value ≠ "linux" ∧ node.value ≠ "windows" then
    [⟨node.line, .osUnsupported node.value⟩]
  else []

def validateContainerName (node : Node) (names : List String) :
    List Err × List String :=
  if node.kind ≠ Kind.scalar then ([⟨node.line, .containerNameMustBeString⟩], names)
  else if node.value = "" then ([⟨node.line, .nameRequired⟩], names)
  else if !matchSnake node.value then
    ([⟨node.line, .containerNameInvalidFormat node.value⟩], names)
  else if names.contains node.value then
    ([⟨node.line, .containerNameNotUnique node.value⟩], names)
  else ([], node.value :: names)

def validateImage (node : Node) : List Err :=
  if node.kind ≠ Kind.scalar then [⟨node.line, .imageMustBeString⟩]
  else if !matchImage node.value then [⟨node.line, .imageInvalidFormat node.value⟩]
  else []

def validateCPU (node : Node) : List Err :=
  if node.kind ≠ Kind.scalar then [⟨node.line, .cpuMustBeInteger⟩]
  else
    match atoi node.value with
    | none => [⟨node.line, .cpuMustBeInt⟩]
    | some _ => []

def validateMemory (node : Node) (pfx : String) : List Err :=
  if node.kind ≠ Kind.scalar then [⟨node.line, .memoryMustBeString pfx⟩]
  else if !matchMemory node.value then
    [⟨node.line, .memoryInvalidFormat pfx node.value⟩]
  else []

def validateResourceRequirements (node : Node) (pfx : String) : List Err :=
  if node.kind ≠ Kind.mapping then [⟨node.line, .requirementsMustBeMapping pfx⟩]
  else ((toPairs node.content).map fun kv =>
    match kv.1.value with
    | "cpu" => validateCPU kv.2
    | "memory" => validateMemory kv.2 pfx
    | _ => []).flatten

def validateResources (node : Node) : List Err :=
  if node.kind ≠ Kind.mapping then [⟨node.line, .resourcesMustBeMapping⟩]
  else ((toPairs node.content).map fun kv =>
    match kv.1.value with
    | "requests" => validateResourceRequirements kv.2 "requests"
    | "limits" => validateResourceRequirements kv.2 "limits"
    | _ => []).flatten

def validateContainerPort (node : Node) : List Err :=
  if node.kind ≠ Kind.scalar then [⟨node.line, .containerPortMustBeInteger⟩]
  else
    match atoi node.value with
    | none => [⟨node.line, .containerPortMustBeInteger⟩]
    | some port =>
      if port ≤ 0 ∨ port ≥ 65536 then [⟨node.line, .containerPortOutOfRange⟩] else []

def validateProtocol (node : Node) : List Err :=
  if node.kind ≠ Kind.scalar then [⟨node.line, .protocolMustBeString⟩]
  else if node.value ≠ "TCP" ∧ node.value ≠ "UDP" then
    [⟨node.line, .protocolUnsupported node.value⟩]
  else []

/-- Body of the loop of validatePorts for one mapping element: protocol is
validated inline while scanning, the collected containerPort is checked after. -/
def portBody (p : Node) : List Err :=
  ((toPairs p.content).map fun kv =>
    if kv.1.value = "protocol" then validateProtocol kv.2 else []).flatten
  ++ (match lastOcc (toPairs p.content) "containerPort" with
      | none => [⟨0, Msg.containerPortRequired⟩]
      | some n => validateContainerPort n)

def validatePorts (node : Node) : List Err :=
  if node.kind ≠ Kind.sequence then [⟨node.line, .portsMustBeSequence⟩]
  else (node.content.map fun p =>
    if p.kind ≠ Kind.mapping then [⟨p.line, Msg.portMustBeMapping⟩] else portBody p).flatten

def validatePath (node : Node) : List Err :=
  if node.kind ≠ Kind.scalar then [⟨node.line, .pathMustBeString⟩]
  else if node.value.data.head? ≠ some '/' then [⟨node.line, .pathMustBeAbsolute⟩]
  else []

def validateProbePort (node : Node) : List Err :=
  if node.kind ≠ Kind.scalar then [⟨node.line, .portMustBeInteger⟩]
  else
    match atoi node.value with
    | none => [⟨node.line, .portMustBeInteger⟩]
    | some port =>
      if port ≤ 0 ∨ port ≥ 65536 then [⟨node.line, .portOutOfRange⟩] else []

def validateHTTPGetAction (node : Node) : List Err :=
  if node.kind ≠ Kind.mapping then [⟨node.line, .httpGetMustBeMapping⟩]
  else
    (match lastOcc (toPairs node.content) "path" with
     | none => [⟨0, Msg.pathRequired⟩]
     | some n => validatePath n)
    ++ (match lastOcc (toPairs node.content) "port" with
        | none => [⟨0, Msg.portRequired⟩]
        | some n => validateProbePort n)

def validateProbe (node : Node) : List Err :=
  if node.kind ≠ Kind.mapping then [⟨node.line, .probeMustBeMapping⟩]
  else
    match lastOcc (toPairs node.content) "httpGet" with
    | none => [⟨0, Msg.httpGetRequired⟩]
    | some n => validateHTTPGetAction n

/-- Scan state of validateContainer: the three collected locals and the
errors emitted inline so far. -/
structure CScan : Type where
  nameNode : Option Node
  imageNode : Option Node
  resourcesNode : Option Node
  errs : List Err

/-- One step of the field scan of validateContainer: name/image/resources
are collected into locals; ports and the two probes are validated inline. -/
def containerScanStep (acc : CScan) (kv : Node × Node) : CScan :=
  match kv.1.value with
  | "name" => { acc with nameNode := some kv.2 }
  | "image" => { acc with imageNode := some kv.2 }
  | "resources" => { acc with resourcesNode := some kv.2 }
  | "ports" => { acc with errs := acc.errs ++ validatePorts kv.2 }
  | "readinessProbe" => { acc with errs := acc.errs ++ validateProbe kv.2 }
  | "livenessProbe" => { acc with errs := acc.errs ++ validateProbe kv.2 }
  | _ => acc

def validateContainer (node : Node) (names : List String) :
    List Err × List String :=
  let s := (toPairs node.content).foldl containerScanStep (CScan.mk none none none [])
  let nr : List Err × List String := match s.nameNode with
    | none => ([⟨0, Msg.containerNameRequired⟩], names)
    | some n => validateContainerName n names
  let imageErrs := match s.imageNode with
    | none => [⟨0, Msg.containerImageRequired⟩]
    | some n => validateImage n
  let resErrs := match s.resourcesNode with
    | none => [⟨0, Msg.containerResourcesRequired⟩]
    | some n => validateResources n
  (s.errs ++ nr.1 ++ imageErrs ++ resErrs, nr.2)

def containersStep (acc : List Err × List String) (c : Node) :
    List Err × List String :=
  if c.kind ≠ Kind.mapping then (acc.1 ++ [⟨c.line, Msg.containerMustBeMapping⟩], acc.2)
  else
    let r := validateContainer c acc.2
    (acc.1 ++ r.1, r.2)

def validateContainers (node : Node) : List Err :=
  if node.kind ≠ Kind.sequence then [⟨node.line, .containersMustBeSequence⟩]
  else (node.content.foldl containersStep ([], [])).1

def validateSpec (node : Node) : List Err :=
  if node.kind ≠ Kind.mapping then [⟨node.line, .specMustBeMapping⟩]
  else ((toPairs node.content).map fun kv =>
    match kv.1.value with
    | "os" => validateOS kv.2
    | "containers" => validateContainers kv.2
    | _ => []).flatten

def validateDocument (node : Node) : List Err :=
  if node.kind ≠ Kind.mapping then [⟨node.line, .rootMustBeMapping⟩]
  else ((toPairs node.content).map fun kv =>
    match kv.1.value with
    | "apiVersion" => validateAPIVersion kv.2
    | "kind" => validateKind kv.2
    | "metadata" => validateMetadata kv.2
    | "spec" => validateSpec kv.2
    | _ => []).flatten

/-- The validator session: target filename and the rendered error list. -/
structure Validator : Type where
  filename : String
  errors : List String

def NewValidator (filename : String) : Validator := ⟨filename, []⟩

/-- The effect of `Errorf` calls for a batch of diagnostics: render each and
append to the session error list. -/
def appendErrs (v : Validator) (es : List Err) : Validator :=
  { v with errors := v.errors ++ es.map (renderErr v.filename) }

/-- `Validate`: reports `empty document` for an empty tree but then
unconditionally reads `root.Content[0]`; `none` models the runtime panic
(index out of range) that this access performs on an empty Content slice. -/
def Validate (v : Validator) (root : Node) : Option Validator :=
  let v1 := if root.content.length = 0 then appendErrs v [⟨0, .emptyDocument⟩] else v
  match root.content with
  | [] => none
  | doc :: _ => some (appendErrs v1 (validateDocument doc))

end Part000

namespace MainGo2

def validateAPIVersion (node : Node) : List Err :=
  if node.value ≠ "v1" then [⟨node.line, .apiVersionUnsupported node.value⟩] else []

def validateKind (node : Node) : List Err :=
  if node.value ≠ "Pod" then [⟨node.line, .kindUnsupported node.value⟩] else []

def validateLabels (node : Node) : List Err :=
  if node.kind ≠ Kind.mapping then [⟨node.line, .labelsMustBeMapping⟩]
  else ((toPairs node.content).map fun kv =>
    (if kv.1.kind ≠ Kind.scalar then [⟨kv.1.line, Msg.labelKeyMustBeString⟩] else []) ++
    (if kv.2.kind ≠ Kind.scalar then [⟨kv.2.line, Msg.labelValueMustBeString⟩] else [])).flatten

def validateMetadata (node : Node) : List Err :=
  if node.kind ≠ Kind.mapping then [⟨node.line, .metadataMustBeMapping⟩]
  else
    (match lastOcc (toPairs node.content) "name" with
     | none => [⟨0, Msg.metadataNameRequired⟩]
     | some n =>
       if n.kind ≠ Kind.scalar then [⟨n.line, Msg.nameMustBeString⟩]
       else if n.value = "" then [⟨n.line, Msg.nameRequired⟩]
       else [])
    ++ (match lastOcc (toPairs node.content) "namespace" with
        | none => []
        | some n => if n.kind ≠ Kind.scalar then [⟨n.line, Msg.namespaceMustBeString⟩] else [])
    ++ (match lastOcc (toPairs node.content) "labels" with
        | none => []
        | some n => validateLabels n)

def validateOS (node : Node) : List Err :=
  if node.kind ≠ Kind.scalar then [⟨node.line, .osMustBeString⟩]
  else if node.value ≠ "linux" ∧ node.value ≠ "windows" then
    [⟨node.line, .osUnsupported node.value⟩]
  else []

def validateContainerName (node : Node) (names : List String) :
    List Err × List String :=
  if node.kind ≠ Kind.scalar then ([⟨node.line, .containerNameMustBeString⟩], names)
  else if node.value = "" then ([⟨node.line, .nameRequired⟩], names)
  else if !matchSnake node.value then
    ([⟨node.line, .containerNameInvalidFormat node.value⟩], names)
  else if names.contains node.value then
    ([⟨node.line, .containerNameNotUnique node.value⟩], names)
  else ([], node.value :: names)

def validateImage (node : Node) : List Err :=
  if node.kind ≠ Kind.scalar then [⟨node.line, .imageMustBeString⟩]
  else if !matchImage node.value then [⟨node.line, .imageInvalidFormat node.value⟩]
  else []

def validateCPU (node : Node) (pfx : String) : List Err :=
  if node.kind ≠ Kind.scalar then [⟨node.line, .cpuMustBeIntegerPfx pfx⟩]
  else
    match atoi node.value with
    | none => [⟨node.line, .cpuMustBeIntegerPfx pfx⟩]
    | some _ => []

def validateMemory (node : Node) (pfx : String) : List Err :=
  if node.kind ≠ Kind.scalar then [⟨node.line, .memoryMustBeString pfx⟩]
  else if !matchMemory node.value then
    [⟨node.line, .memoryInvalidFormat pfx node.value⟩]
  else []

/-- The resource-requirement-set validator of the second main.go program:
unlike the other mapping validators it has a default switch branch, so every
key other than cpu and memory is reported as an unsupported resource type. -/
def validateResourceRequirements (node : Node) (pfx : String) : List Err :=
  if node.kind ≠ Kind.mapping then [⟨node.line, .requirementsMustBeMapping pfx⟩]
  else ((toPairs node.content).map fun kv =>
    match kv.1.value with
    | "cpu" => validateCPU kv.2 pfx
    | "memory" => validateMemory kv.2 pfx
    | _ => [⟨kv.1.line, Msg.unsupportedResourceType pfx kv.1.value⟩]).flatten

def validateResources (node : Node) : List Err :=
  if node.kind ≠ Kind.mapping then [⟨node.line, .resourcesMustBeMapping⟩]
  else
    (match lastOcc (toPairs node.content) "requests" with
     | none => []
     | some n => validateResourceRequirements n "requests")
    ++ (match lastOcc (toPairs node.content) "limits" with
        | none => []
        | some n => validateResourceRequirements n "limits")

def validateContainerPort (node : Node) : List Err :=
  if node.kind ≠ Kind.scalar then [⟨node.line, .containerPortMustBeInteger⟩]
  else
    match atoi node.value with
    | none => [⟨node.line, .containerPortMustBeInteger⟩]
    | some port =>
      if port ≤ 0 ∨ port ≥ 65536 then [⟨node.line, .containerPortOutOfRange⟩] else []

def validateProtocol (node : Node) : List Err :=
  if node.kind ≠ Kind.scalar then [⟨node.line, .protocolMustBeString⟩]
  else if node.value ≠ "TCP" ∧ node.value ≠ "UDP" then
    [⟨node.line, .protocolUnsupported node.value⟩]
  else []

/-- Body of the loop of validatePorts for one mapping element. -/
def portBody (p : Node) : List Err :=
  (match lastOcc (toPairs p.content) "containerPort" with
   | none => [⟨0, Msg.containerPortRequired⟩]
   | some n => validateContainerPort n)
  ++ (match lastOcc (toPairs p.content) "protocol" with
      | none => []
      | some n => validateProtocol n)

def validatePorts (node : Node) : List Err :=
  if node.kind ≠ Kind.sequence then [⟨node.line, .portsMustBeSequence⟩]
  else (node.content.map fun p =>
    if p.kind ≠ Kind.mapping then [⟨p.line, Msg.portMustBeMapping⟩] else portBody p).flatten

def validateProbePort (node : Node) : List Err :=
  if node.kind ≠ Kind.scalar then [⟨node.line, .portMustBeInteger⟩]
  else
    match atoi node.value with
    | none => [⟨node.line, .portMustBeInteger⟩]
    | some port =>
      if port ≤ 0 ∨ port ≥ 65536 then [⟨node.line, .portOutOfRange⟩] else []

def validateHTTPGetAction (node : Node) : List Err :=
  if node.kind ≠ Kind.mapping then [⟨node.line, .httpGetMustBeMapping⟩]
  else
    (match lastOcc (toPairs node.content) "path" with
     | none => [⟨0, Msg.pathRequired⟩]
     | some n =>
       if n.kind ≠ Kind.scalar then [⟨n.line, Msg.pathMustBeString⟩]
       else if n.value.data.head? ≠ some '/' then [⟨n.line, Msg.pathMustBeAbsolute⟩]
       else [])
    ++ (match lastOcc (toPairs node.content) "port" with
        | none => [⟨0, Msg.portRequired⟩]
        | some n => validateProbePort n)

def validateProbe (node : Node) : List Err :=
  if node.kind ≠ Kind.mapping then [⟨node.line, .probeMustBeMapping⟩]
  else
    match lastOcc (toPairs node.content) "httpGet" with
    | none => [⟨0, Msg.httpGetRequired⟩]
    | some n => validateHTTPGetAction n

/-- Body of the container loop of validateContainers: field lookups on the
container mapping, required name/image/resources first, then the optional
ports and probes, in that fixed order. -/
def containerFields (c : Node) (names : List String) :
    List Err × List String :=
  let ps := toPairs c.content
  let nr : List Err × List String := match lastOcc ps "name" with
    | none => ([⟨0, Msg.containerNameRequired⟩], names)
    | some n => validateContainerName n names
  let imageErrs := match lastOcc ps "image" with
    | none => [⟨0, Msg.containerImageRequired⟩]
    | some n => validateImage n
  let resErrs := match lastOcc ps "resources" with
    | none => [⟨0, Msg.containerResourcesRequired⟩]
    | some n => validateResources n
  let portErrs := match lastOcc ps "ports" with
    | none => []
    | some n => validatePorts n
  let rpErrs := match lastOcc ps "readinessProbe" with
    | none => []
    | some n => validateProbe n
  let lpErrs := match lastOcc ps "livenessProbe" with
    | none => []
    | some n => validateProbe n
  (nr.1 ++ imageErrs ++ resErrs ++ portErrs ++ rpErrs ++ lpErrs, nr.2)

def containersStep (acc : List Err × List String) (c : Node) :
    List Err × List String :=
  if c.kind ≠ Kind.mapping then (acc.1 ++ [⟨c.line, Msg.containerMustBeMapping⟩], acc.2)
  else
    let r := containerFields c acc.2
    (acc.1 ++ r.1, r.2)

def validateContainers (node : Node) : List Err :=
  if node.kind ≠ Kind.sequence then [⟨node.line, .containersMustBeSequence⟩]
  else (node.content.foldl containersStep ([], [])).1

def validateSpec (node : Node) : List Err :=
  if node.kind ≠ Kind.mapping then [⟨node.line, .specMustBeMapping⟩]
  else
    (match lastOcc (toPairs node.content) "os" with
     | none => []
     | some n => validateOS n)
    ++ (match lastOcc (toPairs node.content) "containers" with
        | none => [⟨0, Msg.specContainersRequired⟩]
        | some n => validateContainers n)

/-- The four top-level field checks of validateTopLevel on the document
mapping, in fixed order with required-field diagnostics at line 0. -/
def podFields (doc : Node) : List Err :=
  (match lastOcc (toPairs doc.content) "apiVersion" with
   | none => [⟨0, Msg.apiVersionRequired⟩]
   | some n => validateAPIVersion n)
  ++ (match lastOcc (toPairs doc.content) "kind" with
      | none => [⟨0, Msg.kindRequired⟩]
      | some n => validateKind n)
  ++ (match lastOcc (toPairs doc.content) "metadata" with
      | none => [⟨0, Msg.metadataRequired⟩]
      | some n => validateMetadata n)
  ++ (match lastOcc (toPairs doc.content) "spec" with
      | none => [⟨0, Msg.specRequired⟩]
      | some n => validateSpec n)

def validateTopLevel (root : Node) : List Err :=
  match root.content with
  | [] => [⟨0, Msg.emptyDocument⟩]
  | doc :: _ =>
    if doc.kind ≠ Kind.mapping then [⟨doc.line, Msg.rootMustBeMapping⟩]
    else podFields doc

end MainGo2

namespace MainGo1

/-- parseMapping of the first main.go program: flattens a mapping node into
key/value insertions for a Go map; a non-mapping yields no insertions. -/
def parseMapping (node : Node) : List (String × Node) :=
  if node.kind ≠ Kind.mapping then []
  else (toPairs node.content).map fun kv => (kv.1.value, kv.2)

/-- Go map lookup over the insertion list: a later insertion for the same
key overwrites an earlier one. -/
def mapGet (m : List (String × Node)) (key : String) : Option Node :=
  m.foldl (fun acc kv => if kv.1 = key then some kv.2 else acc) none

end MainGo1

@[simp] theorem Node.kind_mk (k : Kind) (l : Nat) (v : String) (c : List Node) :
    (Node.mk k l v c).kind = k := rfl

@[simp] theorem Node.line_mk (k : Kind) (l : Nat) (v : String) (c : List Node) :
    (Node.mk k l v c).line = l := rfl

@[simp] theorem Node.value_mk (k : Kind) (l : Nat) (v : String) (c : List Node) :
    (Node.mk k l v c).value = v := rfl

@[simp] theorem Node.content_mk (k : Kind) (l : Nat) (v : String) (c : List Node) :
    (Node.mk k l v c).content = c := rfl

@[simp] theorem toPairs_nil : toPairs [] = [] := rfl

@[simp] theorem toPairs_single (k : Node) : toPairs [k] = [] := rfl

@[simp] theorem toPairs_cons_cons (k v : Node) (rest : List Node) :
    toPairs (k :: v :: rest) = (k, v) :: toPairs rest := rfl

/-- Pairing distributes over appending an even-length prefix. -/
theorem toPairs_append_even :
    ∀ (ps qs : List Node), ps.length % 2 = 0 →
      toPairs (ps ++ qs) = toPairs ps ++ toPairs qs
| [], _, _ => by simp
| [_], _, h => by simp at h
| k :: v :: rest, qs, h => by
  have ih := toPairs_append_even rest qs (by simp at h; omega)
  simp [ih]

theorem lastOcc_nil (key : String) : lastOcc [] key = none := rfl

/-- C10: the claim asserts that Validate only reads root.Content[0] when
Content is non-empty.  On a tree with empty Content, Validate of the
unnamed-file validator records the empty-document diagnostic but then still
evaluates root.Content[0], which is an out-of-bounds access (modelled as
`none`, the runtime panic).  This theorem evaluates the code at the failing
input; the sibling implementations in main.go return before the access, so
the missing early return is a slip of the code, not of the claim. -/
theorem c10_empty_content_out_of_bounds :
    Part000.Validate (Part000.NewValidator "pod.yaml")
      (Node.mk Kind.document 1 "" []) = none := rfl

/-- C9: validation output depends only on the session contents (target
filename and already-recorded errors); two runs whose sessions agree, in
particular two fresh sessions over the same tree, produce identical error
lists in identical order. -/
theorem c9_validate_deterministic (v1 v2 : Part000.Validator) (root : Node)
    (hf : v1.filename = v2.filename) (he : v1.errors = v2.errors) :
    (Part000.Validate v1 root).map Part000.Validator.errors =
      (Part000.Validate v2 root).map Part000.Validator.errors := by
  cases v1
  cases v2
  cases hf
  cases he
  rfl

theorem c9_validate_deterministic_witness :
    (Part000.Validate (Part000.NewValidator "pod.yaml")
        (Node.mk Kind.document 1 "" [Node.mk Kind.mapping 1 "" []])).map
        Part000.Validator.errors =
      (Part000.Validate (Part000.NewValidator "pod.yaml")
        (Node.mk Kind.document 1 "" [Node.mk Kind.mapping 1 "" []])).map
        Part000.Validator.errors :=
  c9_validate_deterministic (Part000.NewValidator "pod.yaml")
    (Part000.NewValidator "pod.yaml")
    (Node.mk Kind.document 1 "" [Node.mk Kind.mapping 1 "" []]) rfl rfl

/-- C2: when the document root node (Content[0]) is not a mapping, the whole
run reports exactly the single diagnostic `root must be mapping` at the root
node's line; and when the root is a mapping there is no such short-circuit:
the document check processes every key/value pair of the mapping, so its
output distributes over any even split of the children. -/
theorem c2_root_mapping_short_circuit :
    (∀ (f : String) (rk : Kind) (rl : Nat) (rv : String) (doc : Node)
        (rest : List Node), doc.kind ≠ Kind.mapping →
      Part000.Validate (Part000.NewValidator f) (Node.mk rk rl rv (doc :: rest)) =
        some ⟨f, [renderErr f ⟨doc.line, Msg.rootMustBeMapping⟩]⟩)
    ∧ (∀ (l : Nat) (v : String) (ps qs : List Node), ps.length % 2 = 0 →
      Part000.validateDocument (Node.mk Kind.mapping l v (ps ++ qs)) =
        Part000.validateDocument (Node.mk Kind.mapping l v ps) ++
          Part000.validateDocument (Node.mk Kind.mapping l v qs)) := by
  constructor
  · intro f rk rl rv doc rest h
    simp [Part000.Validate, Part000.NewValidator, Part000.appendErrs,
      Part000.validateDocument, h]
  · intro l v ps qs h
    simp [Part000.validateDocument, toPairs_append_even ps qs h]

theorem c2_root_mapping_short_circuit_witness :
    Part000.Validate (Part000.NewValidator "pod.yaml")
        (Node.mk Kind.document 1 "" [Node.mk Kind.sequence 3 "" []]) =
      some ⟨"pod.yaml", [renderErr "pod.yaml" ⟨3, Msg.rootMustBeMapping⟩]⟩ :=
  c2_root_mapping_short_circuit.1 "pod.yaml" Kind.document 1 ""
    (Node.mk Kind.sequence 3 "" []) [] (by decide)

/-- C6: for a scalar port value parsing as integer v, both port validators
accept exactly the inclusive range 1..65535 and otherwise report the
out-of-range diagnostic at the value's line. -/
theorem c6_port_range (l : Nat) (s : String) (cont : List Node) (v : Int)
    (h : atoi s = some v) :
    (Part000.validateContainerPort (Node.mk Kind.scalar l s cont) =
       if 1 ≤ v ∧ v ≤ 65535 then [] else [⟨l, Msg.containerPortOutOfRange⟩])
    ∧ (Part000.validateProbePort (Node.mk Kind.scalar l s cont) =
       if 1 ≤ v ∧ v ≤ 65535 then [] else [⟨l, Msg.portOutOfRange⟩]) := by
  constructor
  · simp only [Part000.validateContainerPort, Node.kind_mk, Node.value_mk, Node.line_mk,
      ne_eq, not_true_eq_false, if_false, h]
    split_ifs <;> first | rfl | omega
  · simp only [Part000.validateProbePort, Node.kind_mk, Node.value_mk, Node.line_mk,
      ne_eq, not_true_eq_false, if_false, h]
    split_ifs <;> first | rfl | omega

theorem c6_port_range_witness :
    Part000.validateContainerPort (Node.mk Kind.scalar 7 "65535" []) = [] ∧
    Part000.validateProbePort (Node.mk Kind.scalar 9 "0" []) =
      [⟨9, Msg.portOutOfRange⟩] := by
  constructor
  · have h := (c6_port_range 7 "65535" [] 65535 (by decide)).1
    simpa using h
  · have h := (c6_port_range 9 "0" [] 0 (by decide)).2
    simpa using h

/-- Spec-side description of duplicate keys: the value of the last
occurrence of the key among the mapping pairs. -/
def lastDuplicateWins (ps : List (Node × Node)) (key : String) : Option Node :=
  ((ps.filter fun kv => kv.1.value == key).getLast?).map Prod.snd

theorem mapGet_map_pairs (ps : List (Node × Node)) (key : String) :
    MainGo1.mapGet (ps.map fun kv => (kv.1.value, kv.2)) key =
      lastDuplicateWins ps key := by
  induction ps using List.reverseRecOn with
  | nil => rfl
  | append_singleton ps kv ih =>
    by_cases hk : kv.1.value = key
    · simp [MainGo1.mapGet, lastDuplicateWins, List.foldl_append,
        List.filter_append, hk]
    · have h1 : MainGo1.mapGet ((ps ++ [kv]).map fun kv => (kv.1.value, kv.2)) key =
          MainGo1.mapGet (ps.map fun kv => (kv.1.value, kv.2)) key := by
        simp [MainGo1.mapGet, List.foldl_append, hk]
      have h2 : lastDuplicateWins (ps ++ [kv]) key = lastDuplicateWins ps key := by
        simp [lastDuplicateWins, List.filter_append, hk]
      rw [h1, h2, ih]

/-- C8: parseMapping yields an empty lookup for any non-mapping node, and on
a mapping node the resulting lookup returns, for every key, the value of the
last occurrence of that key (last-seen wins), with no diagnostic produced. -/
theorem c8_field_accessor :
    (∀ node : Node, node.kind ≠ Kind.mapping → MainGo1.parseMapping node = [])
    ∧ (∀ (node : Node) (key : String), node.kind = Kind.mapping →
        MainGo1.mapGet (MainGo1.parseMapping node) key =
          lastDuplicateWins (toPairs node.content) key) := by
  constructor
  · intro node h
    simp [MainGo1.parseMapping, h]
  · intro node key h
    simp [MainGo1.parseMapping, h, mapGet_map_pairs]

theorem c8_field_accessor_witness :
    MainGo1.parseMapping (Node.mk Kind.scalar 1 "x" []) = [] ∧
    MainGo1.mapGet (MainGo1.parseMapping (Node.mk Kind.mapping 1 ""
        [Node.mk Kind.scalar 2 "name" [], Node.mk Kind.scalar 2 "a" [],
         Node.mk Kind.scalar 3 "name" [], Node.mk Kind.scalar 3 "b" []])) "name" =
      lastDuplicateWins (toPairs
        [Node.mk Kind.scalar 2 "name" [], Node.mk Kind.scalar 2 "a" [],
         Node.mk Kind.scalar 3 "name" [], Node.mk Kind.scalar 3 "b" []]) "name" :=
  ⟨c8_field_accessor.1 (Node.mk Kind.scalar 1 "x" []) (by decide),
   c8_field_accessor.2 (Node.mk Kind.mapping 1 ""
      [Node.mk Kind.scalar 2 "name" [], Node.mk Kind.scalar 2 "a" [],
       Node.mk Kind.scalar 3 "name" [], Node.mk Kind.scalar 3 "b" []]) "name" rfl⟩

theorem isLower_ne_underscore {c : Char} (h : isLower c = true) : c ≠ '_' := by
  intro hc
  subst hc
  simp [isLower] at h

theorem snakeAux_underscore_cons (d : Char) (rest : List Char) :
    snakeAux ('_' :: d :: rest) = (isLower d && snakeAux rest) := by
  simp [snakeAux]

theorem snakeAux_cons_cons_of_ne (c d : Char) (rest : List Char) (h : c ≠ '_') :
    snakeAux (c :: d :: rest) = (isLower c && snakeAux (d :: rest)) := by
  simp [snakeAux, h]

/-- Invariant of the regex tail `([a-z]|_[a-z])*`: every character is a
lowercase letter or an underscore, no underscore is followed by another
underscore, and the last character is not an underscore. -/
def SnakeTail (cs : List Char) : Prop :=
  (∀ c ∈ cs, isLower c = true ∨ c = '_') ∧
  List.Chain' (fun a b => a = '_' → b ≠ '_') cs ∧
  cs.getLast? ≠ some '_'

instance (cs : List Char) : Decidable (SnakeTail cs) := by
  unfold SnakeTail
  infer_instance

/-- The snake-case characterization of the claim: nonempty, lowercase
letters with single internal underscores only, no digits, no leading,
trailing, or doubled underscores. -/
def SnakeSpec (cs : List Char) : Prop :=
  cs ≠ [] ∧ (∀ c ∈ cs, isLower c = true ∨ c = '_') ∧
  cs.head? ≠ some '_' ∧ cs.getLast? ≠ some '_' ∧
  List.Chain' (fun a b => a = '_' → b ≠ '_') cs

instance (cs : List Char) : Decidable (SnakeSpec cs) := by
  unfold SnakeSpec
  infer_instance

theorem snakeTail_singleton (c : Char) : SnakeTail [c] ↔ isLower c = true := by
  simp only [SnakeTail, List.chain'_singleton, List.getLast?_singleton,
    List.mem_singleton]
  constructor
  · rintro ⟨hgood, -, hlast⟩
    rcases hgood c rfl with h | h
    · exact h
    · exact absurd (by simpa using h) hlast
  · intro hl
    refine ⟨?_, trivial, ?_⟩
    · rintro x rfl
      exact Or.inl hl
    · simpa using isLower_ne_underscore hl

theorem snakeTail_underscore_cons (d : Char) (rest : List Char) :
    SnakeTail ('_' :: d :: rest) ↔ (d ≠ '_' ∧ SnakeTail (d :: rest)) := by
  simp only [SnakeTail, List.chain'_cons, List.getLast?_cons_cons, List.mem_cons]
  constructor
  · rintro ⟨hgood, ⟨hpair, hchain⟩, hlast⟩
    have hd : d ≠ '_' := by simpa using hpair
    exact ⟨hd, fun c hc => hgood c (Or.inr hc), hchain, hlast⟩
  · rintro ⟨hd, hgood, hchain, hlast⟩
    refine ⟨?_, ⟨fun _ => hd, hchain⟩, hlast⟩
    rintro c (hc | hc)
    · exact Or.inr hc
    · exact hgood c hc

theorem snakeTail_cons_cons_of_ne (c d : Char) (rest : List Char) (hc : c ≠ '_') :
    SnakeTail (c :: d :: rest) ↔ (isLower c = true ∧ SnakeTail (d :: rest)) := by
  simp only [SnakeTail, List.chain'_cons, List.getLast?_cons_cons, List.mem_cons]
  constructor
  · rintro ⟨hgood, ⟨-, hchain⟩, hlast⟩
    rcases hgood c (Or.inl rfl) with h | h
    · exact ⟨h, fun x hx => hgood x (Or.inr hx), hchain, hlast⟩
    · exact absurd h hc
  · rintro ⟨hl, hgood, hchain, hlast⟩
    refine ⟨?_, ⟨fun h => absurd h hc, hchain⟩, hlast⟩
    rintro x (hx | hx)
    · subst hx
      exact Or.inl hl
    · exact hgood x hx

theorem snakeAux_cons_of_ne (d : Char) (rest : List Char) (hd : d ≠ '_') :
    snakeAux (d :: rest) = (isLower d && snakeAux rest) := by
  cases rest with
  | nil => simp [snakeAux]
  | cons e rest2 => simp [snakeAux, hd]

/-- The recognizer tail `snakeAux` accepts exactly the `SnakeTail`
characterization. -/
theorem snakeAux_iff : ∀ cs : List Char, snakeAux cs = true ↔ SnakeTail cs
| [] => by
  simp [snakeAux, SnakeTail]
| [c] => by
  simp only [snakeAux, snakeTail_singleton c]
| c :: d :: rest => by
  by_cases hc : c = '_'
  · subst hc
    rw [snakeAux_underscore_cons, snakeTail_underscore_cons]
    have ih := snakeAux_iff (d :: rest)
    constructor
    · intro h
      simp only [Bool.and_eq_true] at h
      have hd : d ≠ '_' := isLower_ne_underscore h.1
      refine ⟨hd, ih.mp ?_⟩
      rw [snakeAux_cons_of_ne d rest hd]
      simp [h.1, h.2]
    · rintro ⟨hd, ht⟩
      have h2 := ih.mpr ht
      rw [snakeAux_cons_of_ne d rest hd] at h2
      simpa using h2
  · rw [snakeAux_cons_cons_of_ne c d rest hc, snakeTail_cons_cons_of_ne c d rest hc]
    simp [snakeAux_iff (d :: rest)]

/-- The regex matcher agrees with the snake-case characterization on every
string. -/
theorem matchSnake_iff (s : String) : matchSnake s = true ↔ SnakeSpec s.data := by
  rcases hs : s.data with - | ⟨c, rest⟩
  · simp only [matchSnake, hs, SnakeSpec]
    simp
  · simp only [matchSnake, hs]
    have hspec : SnakeSpec (c :: rest) ↔ (isLower c = true ∧ SnakeTail rest) := by
      constructor
      · rintro ⟨-, hgood, hhead, hlast, hchain⟩
        have hc : c ≠ '_' := by simpa using hhead
        rcases hgood c (List.mem_cons_self c rest) with h | h
        · refine ⟨h, ?_⟩
          cases rest with
          | nil => simp [SnakeTail]
          | cons d rest2 =>
            exact ((snakeTail_cons_cons_of_ne c d rest2 hc).mp
              ⟨hgood, hchain, by simpa using hlast⟩).2
        · exact absurd h hc
      · rintro ⟨hl, ht⟩
        have hc : c ≠ '_' := isLower_ne_underscore hl
        cases rest with
        | nil =>
          refine ⟨by simp, ?_, by simpa using hc, by simpa using hc, by simp⟩
          rintro x hx
          rcases List.mem_singleton.mp hx with rfl
          exact Or.inl hl
        | cons d rest2 =>
          have h2 := (snakeTail_cons_cons_of_ne c d rest2 hc).mpr ⟨hl, ht⟩
          rcases h2 with ⟨hgood, hchain, hlast⟩
          exact ⟨by simp, hgood, by simpa using hc, by simpa using hlast, hchain⟩
    rw [hspec]
    simp [snakeAux_iff rest]

/-- C5: for a non-empty scalar container name, the format check accepts the
value exactly when it is a nonempty string of lowercase letters with single
internal underscores (no digits, no leading, trailing or doubled
underscores); otherwise it reports exactly the invalid-format diagnostic at
the value's line. -/
theorem c5_container_name_format (l : Nat) (v : String) (cont : List Node)
    (names : List String) (hv : v ≠ "") :
    (¬ SnakeSpec v.data →
      Part000.validateContainerName (Node.mk Kind.scalar l v cont) names =
        ([⟨l, Msg.containerNameInvalidFormat v⟩], names))
    ∧ (SnakeSpec v.data →
      ∀ e ∈ (Part000.validateContainerName (Node.mk Kind.scalar l v cont) names).1,
        e.msg ≠ Msg.containerNameInvalidFormat v) := by
  constructor
  · intro h
    have hm : matchSnake v = false := by
      cases hmm : matchSnake v
      · rfl
      · exact absurd ((matchSnake_iff v).mp hmm) h
    simp [Part000.validateContainerName, hv, hm]
  · intro h e he
    have hm : matchSnake v = true := (matchSnake_iff v).mpr h
    by_cases hc : v ∈ names
    · simp [Part000.validateContainerName, hv, hm, hc] at he
      subst he
      simp
    · simp [Part000.validateContainerName, hv, hm, hc] at he

theorem c5_container_name_format_witness :
    Part000.validateContainerName (Node.mk Kind.scalar 4 "Web_1" []) [] =
      ([⟨4, Msg.containerNameInvalidFormat "Web_1"⟩], []) :=
  (c5_container_name_format 4 "Web_1" [] [] (by decide)).1 (by decide)

/-- Overwrite semantics for collected locals: a later assignment wins. -/
def overlay (new old : Option Node) : Option Node :=
  match new with
  | some n => some n
  | none => old

theorem overlay_none_right (a : Option Node) : overlay a none = a := by
  cases a <;> rfl

theorem overlay_some (x : Node) (b : Option Node) : overlay (some x) b = some x := rfl

theorem overlay_assoc (a b c : Option Node) :
    overlay (overlay a b) c = overlay a (overlay b c) := by
  cases a <;> cases b <;> rfl

theorem foldl_overlay (ps : List (Node × Node)) (k : String) (acc : Option Node) :
    ps.foldl (fun a kv => if kv.1.value = k then some kv.2 else a) acc =
      overlay (lastOcc ps k) acc := by
  induction ps generalizing acc with
  | nil => rfl
  | cons kv ps ih =>
    have hcons : lastOcc (kv :: ps) k =
        overlay (lastOcc ps k) (if kv.1.value = k then some kv.2 else none) := by
      show ps.foldl _ _ = _
      rw [ih]
    rw [List.foldl_cons, ih, hcons, overlay_assoc]
    by_cases hk : kv.1.value = k <;> simp [overlay, hk]

theorem lastOcc_cons (kv : Node × Node) (ps : List (Node × Node)) (k : String) :
    lastOcc (kv :: ps) k =
      overlay (lastOcc ps k) (if kv.1.value = k then some kv.2 else none) := by
  show ps.foldl _ _ = _
  rw [foldl_overlay]

/-- The diagnostics emitted inline, in encounter order, while scanning a
container mapping: only the ports and probe fields are validated during the
scan. -/
def inlineErrors (ps : List (Node × Node)) : List Err :=
  (ps.map fun kv =>
    match kv.1.value with
    | "ports" => Part000.validatePorts kv.2
    | "readinessProbe" => Part000.validateProbe kv.2
    | "livenessProbe" => Part000.validateProbe kv.2
    | _ => []).flatten

/-- The deferred name check of a container: required when absent, else
validateContainerName on the collected node. -/
def nameCheck (o : Option Node) (names : List String) : List Err × List String :=
  match o with
  | none => ([⟨0, Msg.containerNameRequired⟩], names)
  | some n => Part000.validateContainerName n names

/-- The deferred image check of a container. -/
def imageCheck (o : Option Node) : List Err :=
  match o with
  | none => [⟨0, Msg.containerImageRequired⟩]
  | some n => Part000.validateImage n

/-- The deferred resources check of a container. -/
def resourcesCheck (o : Option Node) : List Err :=
  match o with
  | none => [⟨0, Msg.containerResourcesRequired⟩]
  | some n => Part000.validateResources n

theorem containerScan_spec (ps : List (Node × Node)) (acc : Part000.CScan) :
    ps.foldl Part000.containerScanStep acc =
      ⟨overlay (lastOcc ps "name") acc.nameNode,
       overlay (lastOcc ps "image") acc.imageNode,
       overlay (lastOcc ps "resources") acc.resourcesNode,
       acc.errs ++ inlineErrors ps⟩ := by
  induction ps generalizing acc with
  | nil =>
    simp [lastOcc, overlay, inlineErrors]
  | cons kv ps ih =>
    rw [List.foldl_cons, ih, lastOcc_cons kv ps "name", lastOcc_cons kv ps "image",
      lastOcc_cons kv ps "resources"]
    by_cases h1 : kv.1.value = "name"
    · simp [Part000.containerScanStep, inlineErrors, h1, overlay_assoc,
        overlay_none_right, overlay_some]
    · by_cases h2 : kv.1.value = "image"
      · simp [Part000.containerScanStep, inlineErrors, h1, h2, overlay_assoc,
          overlay_none_right, overlay_some]
      · by_cases h3 : kv.1.value = "resources"
        · simp [Part000.containerScanStep, inlineErrors, h1, h2, h3, overlay_assoc,
            overlay_none_right, overlay_some]
        · by_cases h4 : kv.1.value = "ports"
          · simp [Part000.containerScanStep, inlineErrors, h1, h2, h3, h4,
              overlay_assoc, overlay_none_right, overlay_some]
          · by_cases h5 : kv.1.value = "readinessProbe"
            · simp [Part000.containerScanStep, inlineErrors, h1, h2, h3, h4, h5,
                overlay_assoc, overlay_none_right, overlay_some]
            · by_cases h6 : kv.1.value = "livenessProbe"
              · simp [Part000.containerScanStep, inlineErrors, h1, h2, h3, h4, h5,
                  h6, overlay_assoc, overlay_none_right, overlay_some]
              · simp [Part000.containerScanStep, inlineErrors, h1, h2, h3, h4, h5,
                  h6, overlay_assoc, overlay_none_right, overlay_some]

theorem validateContainer_decomp (node : Node) (names : List String) :
    Part000.validateContainer node names =
      (inlineErrors (toPairs node.content) ++
         (nameCheck (lastOcc (toPairs node.content) "name") names).1 ++
         imageCheck (lastOcc (toPairs node.content) "image") ++
         resourcesCheck (lastOcc (toPairs node.content) "resources"),
       (nameCheck (lastOcc (toPairs node.content) "name") names).2) := by
  unfold Part000.validateContainer
  rw [containerScan_spec]
  simp only [overlay_none_right, List.nil_append]
  rcases hn : lastOcc (toPairs node.content) "name" with - | n <;>
    rcases hi : lastOcc (toPairs node.content) "image" with - | i <;>
      rcases hr : lastOcc (toPairs node.content) "resources" with - | r <;>
        simp [nameCheck, imageCheck, resourcesCheck, List.append_assoc]

/-- C3: the errors of a container validation are exactly the inline
ports/readinessProbe/livenessProbe diagnostics in the encounter order of
those keys, followed by the deferred name, image and resources checks in
that fixed order, each applied to the last occurrence of its key in the
container mapping, regardless of where those keys appeared. -/
theorem c3_container_traversal_order (node : Node) (names : List String) :
    Part000.validateContainer node names =
      (inlineErrors (toPairs node.content) ++
         (nameCheck (lastOcc (toPairs node.content) "name") names).1 ++
         imageCheck (lastOcc (toPairs node.content) "image") ++
         resourcesCheck (lastOcc (toPairs node.content) "resources"),
       (nameCheck (lastOcc (toPairs node.content) "name") names).2) :=
  validateContainer_decomp node names

/-- Recognizer of the uniqueness diagnostic. -/
def isNotUniqueMsg : Msg → Bool
| .containerNameNotUnique _ => true
| _ => false

/-- A list of diagnostics none of which satisfies the message predicate. -/
def MsgFree (p : Msg → Bool) (l : List Err) : Prop := ∀ e ∈ l, p e.msg = false

theorem MsgFree_filter_nil {p : Msg → Bool} {l : List Err} (h : MsgFree p l) :
    l.filter (fun e => p e.msg) = [] := by
  rw [List.filter_eq_nil_iff]
  intro a ha
  simp [h a ha]

theorem uniqFree_validateProtocol (n : Node) :
    MsgFree isNotUniqueMsg (Part000.validateProtocol n) := by
  intro e he
  simp only [Part000.validateProtocol] at he
  split_ifs at he <;> simp_all [isNotUniqueMsg]

theorem uniqFree_validateContainerPort (n : Node) :
    MsgFree isNotUniqueMsg (Part000.validateContainerPort n) := by
  intro e he
  simp only [Part000.validateContainerPort] at he
  split_ifs at he
  · simp_all [isNotUniqueMsg]
  · split at he
    · simp_all [isNotUniqueMsg]
    · split_ifs at he <;> simp_all [isNotUniqueMsg]

theorem uniqFree_validateProbePort (n : Node) :
    MsgFree isNotUniqueMsg (Part000.validateProbePort n) := by
  intro e he
  simp only [Part000.validateProbePort] at he
  split_ifs at he
  · simp_all [isNotUniqueMsg]
  · split at he
    · simp_all [isNotUniqueMsg]
    · split_ifs at he <;> simp_all [isNotUniqueMsg]

theorem uniqFree_validatePath (n : Node) :
    MsgFree isNotUniqueMsg (Part000.validatePath n) := by
  intro e he
  simp only [Part000.validatePath] at he
  split_ifs at he <;> simp_all [isNotUniqueMsg]

theorem uniqFree_validateHTTPGetAction (n : Node) :
    MsgFree isNotUniqueMsg (Part000.validateHTTPGetAction n) := by
  intro e he
  simp only [Part000.validateHTTPGetAction] at he
  split_ifs at he
  · simp_all [isNotUniqueMsg]
  · simp only [List.mem_append] at he
    rcases he with he | he
    · split at he
      · simp_all [isNotUniqueMsg]
      · exact uniqFree_validatePath _ e he
    · split at he
      · simp_all [isNotUniqueMsg]
      · exact uniqFree_validateProbePort _ e he

theorem uniqFree_validateProbe (n : Node) :
    MsgFree isNotUniqueMsg (Part000.validateProbe n) := by
  intro e he
  simp only [Part000.validateProbe] at he
  split_ifs at he
  · simp_all [isNotUniqueMsg]
  · split at he
    · simp_all [isNotUniqueMsg]
    · exact uniqFree_validateHTTPGetAction _ e he

theorem uniqFree_portBody (p : Node) :
    MsgFree isNotUniqueMsg (Part000.portBody p) := by
  intro e he
  simp only [Part000.portBody, List.mem_append] at he
  rcases he with he | he
  · simp only [List.mem_flatten, List.mem_map] at he
    obtain ⟨l, ⟨kv, -, rfl⟩, hel⟩ := he
    split_ifs at hel
    · exact uniqFree_validateProtocol _ e hel
    · simp at hel
  · split at he
    · simp_all [isNotUniqueMsg]
    · exact uniqFree_validateContainerPort _ e he

theorem uniqFree_validatePorts (n : Node) :
    MsgFree isNotUniqueMsg (Part000.validatePorts n) := by
  intro e he
  simp only [Part000.validatePorts] at he
  split_ifs at he
  · simp_all [isNotUniqueMsg]
  · simp only [List.mem_flatten, List.mem_map] at he
    obtain ⟨l, ⟨c, -, rfl⟩, hel⟩ := he
    split_ifs at hel
    · simp_all [isNotUniqueMsg]
    · exact uniqFree_portBody _ e hel

theorem uniqFree_validateImage (n : Node) :
    MsgFree isNotUniqueMsg (Part000.validateImage n) := by
  intro e he
  simp only [Part000.validateImage] at he
  split_ifs at he <;> simp_all [isNotUniqueMsg]

theorem uniqFree_validateCPU (n : Node) :
    MsgFree isNotUniqueMsg (Part000.validateCPU n) := by
  intro e he
  simp only [Part000.validateCPU] at he
  split_ifs at he
  · simp_all [isNotUniqueMsg]
  · split at he <;> simp_all [isNotUniqueMsg]

theorem uniqFree_validateMemory (n : Node) (pfx : String) :
    MsgFree isNotUniqueMsg (Part000.validateMemory n pfx) := by
  intro e he
  simp only [Part000.validateMemory] at he
  split_ifs at he <;> simp_all [isNotUniqueMsg]

theorem uniqFree_validateResourceRequirements (n : Node) (pfx : String) :
    MsgFree isNotUniqueMsg (Part000.validateResourceRequirements n pfx) := by
  intro e he
  simp only [Part000.validateResourceRequirements] at he
  split_ifs at he
  · simp_all [isNotUniqueMsg]
  · simp only [List.mem_flatten, List.mem_map] at he
    obtain ⟨l, ⟨kv, -, rfl⟩, hel⟩ := he
    split at hel
    · exact uniqFree_validateCPU _ e hel
    · exact uniqFree_validateMemory _ _ e hel
    · simp at hel

theorem uniqFree_validateResources (n : Node) :
    MsgFree isNotUniqueMsg (Part000.validateResources n) := by
  intro e he
  simp only [Part000.validateResources] at he
  split_ifs at he
  · simp_all [isNotUniqueMsg]
  · simp only [List.mem_flatten, List.mem_map] at he
    obtain ⟨l, ⟨kv, -, rfl⟩, hel⟩ := he
    split at hel
    · exact uniqFree_validateResourceRequirements _ _ e hel
    · exact uniqFree_validateResourceRequirements _ _ e hel
    · simp at hel

theorem uniqFree_inlineErrors (ps : List (Node × Node)) :
    MsgFree isNotUniqueMsg (inlineErrors ps) := by
  intro e he
  simp only [inlineErrors, List.mem_flatten, List.mem_map] at he
  obtain ⟨l, ⟨kv, -, rfl⟩, hel⟩ := he
  split at hel
  · exact uniqFree_validatePorts _ e hel
  · exact uniqFree_validateProbe _ e hel
  · exact uniqFree_validateProbe _ e hel
  · simp at hel

theorem uniqFree_imageCheck (o : Option Node) :
    MsgFree isNotUniqueMsg (imageCheck o) := by
  cases o with
  | none =>
    intro e he
    simp_all [imageCheck, isNotUniqueMsg]
  | some n => exact uniqFree_validateImage n

theorem uniqFree_resourcesCheck (o : Option Node) :
    MsgFree isNotUniqueMsg (resourcesCheck o) := by
  cases o with
  | none =>
    intro e he
    simp_all [resourcesCheck, isNotUniqueMsg]
  | some n => exact uniqFree_validateResources n

/-- C4: a containers sequence of exactly two container mappings whose name
values are both the scalar web produces exactly one uniqueness diagnostic,
carrying the name and attributed to the line of the second occurrence of the
name value; the first occurrence contributes none. -/
theorem c4_duplicate_container_name
    (l : Nat) (sv v1 v2 : String) (l1 l2 ln1 ln2 : Nat)
    (cont1 cont2 : List Node) (nc1 nc2 : List Node)
    (h1 : lastOcc (toPairs cont1) "name" = some (Node.mk Kind.scalar ln1 "web" nc1))
    (h2 : lastOcc (toPairs cont2) "name" = some (Node.mk Kind.scalar ln2 "web" nc2)) :
    (Part000.validateContainers (Node.mk Kind.sequence l sv
        [Node.mk Kind.mapping l1 v1 cont1, Node.mk Kind.mapping l2 v2 cont2])).filter
        (fun e => isNotUniqueMsg e.msg) =
      [⟨ln2, Msg.containerNameNotUnique "web"⟩] := by
  have hms : matchSnake "web" = true := by decide
  have hname1 : nameCheck (some (Node.mk Kind.scalar ln1 "web" nc1)) [] =
      ([], ["web"]) := by
    simp [nameCheck, Part000.validateContainerName, hms]
  have hname2 : nameCheck (some (Node.mk Kind.scalar ln2 "web" nc2)) ["web"] =
      ([⟨ln2, Msg.containerNameNotUnique "web"⟩], ["web"]) := by
    simp [nameCheck, Part000.validateContainerName, hms]
  have e1 := validateContainer_decomp (Node.mk Kind.mapping l1 v1 cont1) []
  rw [Node.content_mk, h1, hname1] at e1
  have e2 := validateContainer_decomp (Node.mk Kind.mapping l2 v2 cont2) ["web"]
  rw [Node.content_mk, h2, hname2] at e2
  simp only [Part000.validateContainers, Node.kind_mk, Node.content_mk, ne_eq,
    not_true_eq_false, if_false, List.foldl_cons, List.foldl_nil,
    Part000.containersStep, e1, e2]
  simp only [List.nil_append, List.append_nil, List.filter_append]
  rw [MsgFree_filter_nil (uniqFree_inlineErrors _),
    MsgFree_filter_nil (uniqFree_imageCheck _),
    MsgFree_filter_nil (uniqFree_resourcesCheck _),
    MsgFree_filter_nil (uniqFree_inlineErrors _),
    MsgFree_filter_nil (uniqFree_imageCheck _),
    MsgFree_filter_nil (uniqFree_resourcesCheck _)]
  simp [isNotUniqueMsg]

theorem c4_duplicate_container_name_witness :
    (Part000.validateContainers (Node.mk Kind.sequence 3 ""
        [Node.mk Kind.mapping 4 ""
          [Node.mk Kind.scalar 4 "name" [], Node.mk Kind.scalar 4 "web" []],
         Node.mk Kind.mapping 5 ""
          [Node.mk Kind.scalar 5 "name" [], Node.mk Kind.scalar 5 "web" []]])).filter
        (fun e => isNotUniqueMsg e.msg) =
      [⟨5, Msg.containerNameNotUnique "web"⟩] :=
  c4_duplicate_container_name 3 "" "" "" 4 5 4 5
    [Node.mk Kind.scalar 4 "name" [], Node.mk Kind.scalar 4 "web" []]
    [Node.mk Kind.scalar 5 "name" [], Node.mk Kind.scalar 5 "web" []] [] [] rfl rfl

/-- Recognizer of any apiVersion diagnostic. -/
def isApiMsg : Msg → Bool
| .apiVersionRequired => true
| .apiVersionUnsupported _ => true
| .apiVersionMustBeString => true
| _ => false

theorem apiFree_validateKind (n : Node) :
    MsgFree isApiMsg (MainGo2.validateKind n) := by
  intro e he
  simp only [MainGo2.validateKind] at he
  split_ifs at he <;> simp_all [isApiMsg]

theorem apiFree_validateLabels (n : Node) :
    MsgFree isApiMsg (MainGo2.validateLabels n) := by
  intro e he
  simp only [MainGo2.validateLabels] at he
  split_ifs at he
  · simp_all [isApiMsg]
  · simp only [List.mem_flatten, List.mem_map] at he
    obtain ⟨l, ⟨kv, -, rfl⟩, hel⟩ := he
    simp only [List.mem_append] at hel
    rcases hel with hel | hel <;> split_ifs at hel <;> simp_all [isApiMsg]

theorem apiFree_validateMetadata (n : Node) :
    MsgFree isApiMsg (MainGo2.validateMetadata n) := by
  intro e he
  simp only [MainGo2.validateMetadata] at he
  split_ifs at he
  · simp_all [isApiMsg]
  · simp only [List.mem_append] at he
    rcases he with (he | he) | he
    · rcases hn : lastOcc (toPairs n.content) "name" with - | x <;> rw [hn] at he
      · simp_all [isApiMsg]
      · simp only [] at he
        split_ifs at he <;> simp_all [isApiMsg]
    · rcases hn : lastOcc (toPairs n.content) "namespace" with - | x <;> rw [hn] at he
      · simp at he
      · simp only [] at he
        split_ifs at he <;> simp_all [isApiMsg]
    · rcases hn : lastOcc (toPairs n.content) "labels" with - | x <;> rw [hn] at he
      · simp at he
      · exact apiFree_validateLabels _ e he

theorem apiFree_validateOS (n : Node) :
    MsgFree isApiMsg (MainGo2.validateOS n) := by
  intro e he
  simp only [MainGo2.validateOS] at he
  split_ifs at he <;> simp_all [isApiMsg]

theorem apiFree_validateContainerName (n : Node) (names : List String) :
    MsgFree isApiMsg (MainGo2.validateContainerName n names).1 := by
  intro e he
  simp only [MainGo2.validateContainerName] at he
  split_ifs at he <;> simp_all [isApiMsg]

theorem apiFree_validateImage (n : Node) :
    MsgFree isApiMsg (MainGo2.validateImage n) := by
  intro e he
  simp only [MainGo2.validateImage] at he
  split_ifs at he <;> simp_all [isApiMsg]

theorem apiFree_validateCPU (n : Node) (pfx : String) :
    MsgFree isApiMsg (MainGo2.validateCPU n pfx) := by
  intro e he
  simp only [MainGo2.validateCPU] at he
  split_ifs at he
  · simp_all [isApiMsg]
  · split at he <;> simp_all [isApiMsg]

theorem apiFree_validateMemory (n : Node) (pfx : String) :
    MsgFree isApiMsg (MainGo2.validateMemory n pfx) := by
  intro e he
  simp only [MainGo2.validateMemory] at he
  split_ifs at he <;> simp_all [isApiMsg]

theorem apiFree_validateResourceRequirements (n : Node) (pfx : String) :
    MsgFree isApiMsg (MainGo2.validateResourceRequirements n pfx) := by
  intro e he
  simp only [MainGo2.validateResourceRequirements] at he
  split_ifs at he
  · simp_all [isApiMsg]
  · simp only [List.mem_flatten, List.mem_map] at he
    obtain ⟨l, ⟨kv, -, rfl⟩, hel⟩ := he
    split at hel
    · exact apiFree_validateCPU _ _ e hel
    · exact apiFree_validateMemory _ _ e hel
    · simp_all [isApiMsg]

theorem apiFree_validateResources (n : Node) :
    MsgFree isApiMsg (MainGo2.validateResources n) := by
  intro e he
  simp only [MainGo2.validateResources] at he
  split_ifs at he
  · simp_all [isApiMsg]
  · simp only [List.mem_append] at he
    rcases he with he | he
    · rcases hr : lastOcc (toPairs n.content) "requests" with - | x <;> rw [hr] at he
      · simp at he
      · exact apiFree_validateResourceRequirements _ _ e he
    · rcases hr : lastOcc (toPairs n.content) "limits" with - | x <;> rw [hr] at he
      · simp at he
      · exact apiFree_validateResourceRequirements _ _ e he

theorem apiFree_validateContainerPort (n : Node) :
    MsgFree isApiMsg (MainGo2.validateContainerPort n) := by
  intro e he
  simp only [MainGo2.validateContainerPort] at he
  split_ifs at he
  · simp_all [isApiMsg]
  · split at he
    · simp_all [isApiMsg]
    · split_ifs at he <;> simp_all [isApiMsg]

theorem apiFree_validateProtocol (n : Node) :
    MsgFree isApiMsg (MainGo2.validateProtocol n) := by
  intro e he
  simp only [MainGo2.validateProtocol] at he
  split_ifs at he <;> simp_all [isApiMsg]

theorem apiFree_portBody (p : Node) :
    MsgFree isApiMsg (MainGo2.portBody p) := by
  intro e he
  simp only [MainGo2.portBody, List.mem_append] at he
  rcases he with he | he
  · rcases hc : lastOcc (toPairs p.content) "containerPort" with - | x <;> rw [hc] at he
    · simp_all [isApiMsg]
    · exact apiFree_validateContainerPort _ e he
  · rcases hc : lastOcc (toPairs p.content) "protocol" with - | x <;> rw [hc] at he
    · simp at he
    · exact apiFree_validateProtocol _ e he

theorem apiFree_validatePorts (n : Node) :
    MsgFree isApiMsg (MainGo2.validatePorts n) := by
  intro e he
  simp only [MainGo2.validatePorts] at he
  split_ifs at he
  · simp_all [isApiMsg]
  · simp only [List.mem_flatten, List.mem_map] at he
    obtain ⟨l, ⟨c, -, rfl⟩, hel⟩ := he
    split_ifs at hel
    · simp_all [isApiMsg]
    · exact apiFree_portBody _ e hel

theorem apiFree_validateProbePort (n : Node) :
    MsgFree isApiMsg (MainGo2.validateProbePort n) := by
  intro e he
  simp only [MainGo2.validateProbePort] at he
  split_ifs at he
  · simp_all [isApiMsg]
  · split at he
    · simp_all [isApiMsg]
    · split_ifs at he <;> simp_all [isApiMsg]

theorem apiFree_validateHTTPGetAction (n : Node) :
    MsgFree isApiMsg (MainGo2.validateHTTPGetAction n) := by
  intro e he
  simp only [MainGo2.validateHTTPGetAction] at he
  split_ifs at he
  · simp_all [isApiMsg]
  · simp only [List.mem_append] at he
    rcases he with he | he
    · rcases hp : lastOcc (toPairs n.content) "path" with - | x <;> rw [hp] at he
      · simp_all [isApiMsg]
      · simp only [] at he
        split_ifs at he <;> simp_all [isApiMsg]
    · rcases hp : lastOcc (toPairs n.content) "port" with - | x <;> rw [hp] at he
      · simp_all [isApiMsg]
      · exact apiFree_validateProbePort _ e he

theorem apiFree_validateProbe (n : Node) :
    MsgFree isApiMsg (MainGo2.validateProbe n) := by
  intro e he
  simp only [MainGo2.validateProbe] at he
  split_ifs at he
  · simp_all [isApiMsg]
  · rcases hg : lastOcc (toPairs n.content) "httpGet" with - | x <;> rw [hg] at he
    · simp_all [isApiMsg]
    · exact apiFree_validateHTTPGetAction _ e he

theorem apiFree_containerFields (c : Node) (names : List String) :
    MsgFree isApiMsg (MainGo2.containerFields c names).1 := by
  intro e he
  simp only [MainGo2.containerFields, List.mem_append] at he
  rcases he with ((((he | he) | he) | he) | he) | he
  · rcases hn : lastOcc (toPairs c.content) "name" with - | x <;> rw [hn] at he
    · simp_all [isApiMsg]
    · exact apiFree_validateContainerName _ _ e he
  · rcases hn : lastOcc (toPairs c.content) "image" with - | x <;> rw [hn] at he
    · simp_all [isApiMsg]
    · exact apiFree_validateImage _ e he
  · rcases hn : lastOcc (toPairs c.content) "resources" with - | x <;> rw [hn] at he
    · simp_all [isApiMsg]
    · exact apiFree_validateResources _ e he
  · rcases hn : lastOcc (toPairs c.content) "ports" with - | x <;> rw [hn] at he
    · simp at he
    · exact apiFree_validatePorts _ e he
  · rcases hn : lastOcc (toPairs c.content) "readinessProbe" with - | x <;> rw [hn] at he
    · simp at he
    · exact apiFree_validateProbe _ e he
  · rcases hn : lastOcc (toPairs c.content) "livenessProbe" with - | x <;> rw [hn] at he
    · simp at he
    · exact apiFree_validateProbe _ e he

theorem apiFree_containersFold (cs : List Node) :
    ∀ acc : List Err × List String, MsgFree isApiMsg acc.1 →
      MsgFree isApiMsg ((cs.foldl MainGo2.containersStep acc).1) := by
  induction cs with
  | nil =>
    intro acc h
    simpa using h
  | cons c cs ih =>
    intro acc h
    rw [List.foldl_cons]
    refine ih _ ?_
    intro e he
    simp only [MainGo2.containersStep] at he
    split_ifs at he
    · simp only [List.mem_append, List.mem_singleton] at he
      rcases he with he | he
      · exact h e he
      · subst he
        simp [isApiMsg]
    · simp only [List.mem_append] at he
      rcases he with he | he
      · exact h e he
      · exact apiFree_containerFields _ _ e he

theorem apiFree_validateContainers (n : Node) :
    MsgFree isApiMsg (MainGo2.validateContainers n) := by
  intro e he
  simp only [MainGo2.validateContainers] at he
  split_ifs at he
  · simp_all [isApiMsg]
  · exact apiFree_containersFold _ ([], []) (by intro x hx; simp at hx) e he

theorem apiFree_validateSpec (n : Node) :
    MsgFree isApiMsg (MainGo2.validateSpec n) := by
  intro e he
  simp only [MainGo2.validateSpec] at he
  split_ifs at he
  · simp_all [isApiMsg]
  · simp only [List.mem_append] at he
    rcases he with he | he
    · rcases hr : lastOcc (toPairs n.content) "os" with - | x <;> rw [hr] at he
      · simp at he
      · exact apiFree_validateOS _ e he
    · rcases hr : lastOcc (toPairs n.content) "containers" with - | x <;> rw [hr] at he
      · simp_all [isApiMsg]
      · exact apiFree_validateContainers _ e he

theorem lastOcc_eq_none {ps : List (Node × Node)} {k : String}
    (h : ∀ kv ∈ ps, kv.1.value ≠ k) : lastOcc ps k = none := by
  induction ps with
  | nil => rfl
  | cons kv ps ih =>
    rw [lastOcc_cons, if_neg (h kv (List.mem_cons_self kv ps)), overlay_none_right]
    exact ih fun x hx => h x (List.mem_cons_of_mem kv hx)

theorem filter_apiFree_kind (n : Node) :
    (MainGo2.validateKind n).filter (fun e => isApiMsg e.msg) = [] :=
  MsgFree_filter_nil (apiFree_validateKind n)

theorem filter_apiFree_metadata (n : Node) :
    (MainGo2.validateMetadata n).filter (fun e => isApiMsg e.msg) = [] :=
  MsgFree_filter_nil (apiFree_validateMetadata n)

theorem filter_apiFree_spec (n : Node) :
    (MainGo2.validateSpec n).filter (fun e => isApiMsg e.msg) = [] :=
  MsgFree_filter_nil (apiFree_validateSpec n)

/-- C1: when the document root is a mapping carrying no apiVersion key, the
run of the second main.go validator produces exactly one apiVersion
diagnostic: message apiVersion is required, line 0, rendered as the filename
followed by the bare message. -/
theorem c1_apiversion_missing (rk : Kind) (rl dl : Nat) (rv dv f : String)
    (cont rest : List Node)
    (hno : ∀ kv ∈ toPairs cont, kv.1.value ≠ "apiVersion") :
    (MainGo2.validateTopLevel (Node.mk rk rl rv
        (Node.mk Kind.mapping dl dv cont :: rest))).filter
        (fun e => isApiMsg e.msg) = [⟨0, Msg.apiVersionRequired⟩]
    ∧ renderErr f ⟨0, Msg.apiVersionRequired⟩ = f ++ " apiVersion is required" := by
  constructor
  · have hn : lastOcc (toPairs cont) "apiVersion" = none := lastOcc_eq_none hno
    simp only [MainGo2.validateTopLevel, Node.content_mk, Node.kind_mk, ne_eq,
      not_true_eq_false, if_false, MainGo2.podFields, hn, List.filter_append]
    rcases hk : lastOcc (toPairs cont) "kind" with - | kn <;>
      rcases hm : lastOcc (toPairs cont) "metadata" with - | mn <;>
        rcases hs : lastOcc (toPairs cont) "spec" with - | sn <;>
          simp only [hk, hm, hs, List.filter_append, filter_apiFree_kind,
            filter_apiFree_metadata, filter_apiFree_spec] <;>
          simp [isApiMsg]
  · simp only [renderErr, msgText]
    rw [if_neg (by simp)]
    rw [String.append_assoc]
    rfl

theorem c1_apiversion_missing_witness :
    (MainGo2.validateTopLevel (Node.mk Kind.document 1 ""
        [Node.mk Kind.mapping 1 ""
          [Node.mk Kind.scalar 1 "kind" [], Node.mk Kind.scalar 1 "Pod" []]])).filter
        (fun e => isApiMsg e.msg) = [⟨0, Msg.apiVersionRequired⟩]
    ∧ renderErr "pod.yaml" ⟨0, Msg.apiVersionRequired⟩ =
        "pod.yaml" ++ " apiVersion is required" :=
  c1_apiversion_missing Kind.document 1 1 "" "" "pod.yaml"
    [Node.mk Kind.scalar 1 "kind" [], Node.mk Kind.scalar 1 "Pod" []] []
    (by decide)

theorem lastOcc_snoc_ne (ps : List (Node × Node)) (kn vn : Node) (k : String)
    (h : kn.value ≠ k) : lastOcc (ps ++ [(kn, vn)]) k = lastOcc ps k := by
  simp [lastOcc, List.foldl_append, h]

theorem toPairs_snoc (cont : List Node) (kn vn : Node)
    (he : cont.length % 2 = 0) :
    toPairs (cont ++ [kn, vn]) = toPairs cont ++ [(kn, vn)] := by
  rw [toPairs_append_even cont [kn, vn] he]
  rfl

theorem unsupportedResource_mem (ml : Nat) (mv pfx : String) (cont : List Node)
    (kn vn : Node) (hmem : (kn, vn) ∈ toPairs cont)
    (hc : kn.value ≠ "cpu") (hm : kn.value ≠ "memory") :
    (⟨kn.line, Msg.unsupportedResourceType pfx kn.value⟩ : Err) ∈
      MainGo2.validateResourceRequirements (Node.mk Kind.mapping ml mv cont) pfx := by
  simp only [MainGo2.validateResourceRequirements, Node.kind_mk, Node.content_mk,
    ne_eq, not_true_eq_false, if_false]
  refine List.mem_flatten.mpr
    ⟨[⟨kn.line, Msg.unsupportedResourceType pfx kn.value⟩], ?_, by simp⟩
  refine List.mem_map.mpr ⟨(kn, vn), hmem, ?_⟩
  simp [hc, hm]

theorem frame_podFields (l : Nat) (k : Kind) (v : String) (cont : List Node)
    (kn vn : Node) (he : cont.length % 2 = 0)
    (h1 : kn.value ≠ "apiVersion") (h2 : kn.value ≠ "kind")
    (h3 : kn.value ≠ "metadata") (h4 : kn.value ≠ "spec") :
    MainGo2.podFields (Node.mk k l v (cont ++ [kn, vn])) =
      MainGo2.podFields (Node.mk k l v cont) := by
  simp only [MainGo2.podFields, Node.content_mk, toPairs_snoc cont kn vn he,
    lastOcc_snoc_ne _ kn vn _ h1, lastOcc_snoc_ne _ kn vn _ h2,
    lastOcc_snoc_ne _ kn vn _ h3, lastOcc_snoc_ne _ kn vn _ h4]

theorem frame_metadata (l : Nat) (v : String) (cont : List Node)
    (kn vn : Node) (he : cont.length % 2 = 0)
    (h1 : kn.value ≠ "name") (h2 : kn.value ≠ "namespace")
    (h3 : kn.value ≠ "labels") :
    MainGo2.validateMetadata (Node.mk Kind.mapping l v (cont ++ [kn, vn])) =
      MainGo2.validateMetadata (Node.mk Kind.mapping l v cont) := by
  simp only [ne_eq, not_true_eq_false, if_false, MainGo2.validateMetadata, Node.kind_mk, Node.content_mk,
    toPairs_snoc cont kn vn he, lastOcc_snoc_ne _ kn vn _ h1,
    lastOcc_snoc_ne _ kn vn _ h2, lastOcc_snoc_ne _ kn vn _ h3]

theorem frame_spec (l : Nat) (v : String) (cont : List Node)
    (kn vn : Node) (he : cont.length % 2 = 0)
    (h1 : kn.value ≠ "os") (h2 : kn.value ≠ "containers") :
    MainGo2.validateSpec (Node.mk Kind.mapping l v (cont ++ [kn, vn])) =
      MainGo2.validateSpec (Node.mk Kind.mapping l v cont) := by
  simp only [ne_eq, not_true_eq_false, if_false, MainGo2.validateSpec, Node.kind_mk, Node.content_mk,
    toPairs_snoc cont kn vn he, lastOcc_snoc_ne _ kn vn _ h1,
    lastOcc_snoc_ne _ kn vn _ h2]

theorem frame_containerFields (l : Nat) (v : String) (cont : List Node)
    (names : List String) (kn vn : Node) (he : cont.length % 2 = 0)
    (h1 : kn.value ≠ "name") (h2 : kn.value ≠ "image")
    (h3 : kn.value ≠ "resources") (h4 : kn.value ≠ "ports")
    (h5 : kn.value ≠ "readinessProbe") (h6 : kn.value ≠ "livenessProbe") :
    MainGo2.containerFields (Node.mk Kind.mapping l v (cont ++ [kn, vn])) names =
      MainGo2.containerFields (Node.mk Kind.mapping l v cont) names := by
  simp only [MainGo2.containerFields, Node.content_mk,
    toPairs_snoc cont kn vn he, lastOcc_snoc_ne _ kn vn _ h1,
    lastOcc_snoc_ne _ kn vn _ h2, lastOcc_snoc_ne _ kn vn _ h3,
    lastOcc_snoc_ne _ kn vn _ h4, lastOcc_snoc_ne _ kn vn _ h5,
    lastOcc_snoc_ne _ kn vn _ h6]

theorem frame_portBody (l : Nat) (v : String) (cont : List Node)
    (kn vn : Node) (he : cont.length % 2 = 0)
    (h1 : kn.value ≠ "containerPort") (h2 : kn.value ≠ "protocol") :
    MainGo2.portBody (Node.mk Kind.mapping l v (cont ++ [kn, vn])) =
      MainGo2.portBody (Node.mk Kind.mapping l v cont) := by
  simp only [MainGo2.portBody, Node.content_mk, toPairs_snoc cont kn vn he,
    lastOcc_snoc_ne _ kn vn _ h1, lastOcc_snoc_ne _ kn vn _ h2]

theorem frame_probe (l : Nat) (v : String) (cont : List Node)
    (kn vn : Node) (he : cont.length % 2 = 0) (h1 : kn.value ≠ "httpGet") :
    MainGo2.validateProbe (Node.mk Kind.mapping l v (cont ++ [kn, vn])) =
      MainGo2.validateProbe (Node.mk Kind.mapping l v cont) := by
  simp only [ne_eq, not_true_eq_false, if_false, MainGo2.validateProbe, Node.kind_mk, Node.content_mk,
    toPairs_snoc cont kn vn he, lastOcc_snoc_ne _ kn vn _ h1]

theorem frame_httpGet (l : Nat) (v : String) (cont : List Node)
    (kn vn : Node) (he : cont.length % 2 = 0)
    (h1 : kn.value ≠ "path") (h2 : kn.value ≠ "port") :
    MainGo2.validateHTTPGetAction (Node.mk Kind.mapping l v (cont ++ [kn, vn])) =
      MainGo2.validateHTTPGetAction (Node.mk Kind.mapping l v cont) := by
  simp only [ne_eq, not_true_eq_false, if_false, MainGo2.validateHTTPGetAction, Node.kind_mk, Node.content_mk,
    toPairs_snoc cont kn vn he, lastOcc_snoc_ne _ kn vn _ h1,
    lastOcc_snoc_ne _ kn vn _ h2]

theorem frame_resources (l : Nat) (v : String) (cont : List Node)
    (kn vn : Node) (he : cont.length % 2 = 0)
    (h1 : kn.value ≠ "requests") (h2 : kn.value ≠ "limits") :
    MainGo2.validateResources (Node.mk Kind.mapping l v (cont ++ [kn, vn])) =
      MainGo2.validateResources (Node.mk Kind.mapping l v cont) := by
  simp only [ne_eq, not_true_eq_false, if_false, MainGo2.validateResources, Node.kind_mk, Node.content_mk,
    toPairs_snoc cont kn vn he, lastOcc_snoc_ne _ kn vn _ h1,
    lastOcc_snoc_ne _ kn vn _ h2]

/-- C7: in a resource-requirement-set mapping (requests or limits) every key
other than cpu and memory is reported as an unsupported resource type at the
key's line, whereas in every other schema mapping (document, metadata, spec,
container, port, probe, httpGet, resources) appending a pair with an
unrecognized field name leaves the produced diagnostics unchanged. -/
theorem c7_unrecognized_fields :
    (∀ (ml : Nat) (mv pfx : String) (cont : List Node) (kn vn : Node),
       (kn, vn) ∈ toPairs cont → kn.value ≠ "cpu" → kn.value ≠ "memory" →
       (⟨kn.line, Msg.unsupportedResourceType pfx kn.value⟩ : Err) ∈
         MainGo2.validateResourceRequirements (Node.mk Kind.mapping ml mv cont) pfx)
    ∧ (∀ (l : Nat) (k : Kind) (v : String) (cont : List Node) (kn vn : Node),
       cont.length % 2 = 0 → kn.value ≠ "apiVersion" → kn.value ≠ "kind" →
       kn.value ≠ "metadata" → kn.value ≠ "spec" →
       MainGo2.podFields (Node.mk k l v (cont ++ [kn, vn])) =
         MainGo2.podFields (Node.mk k l v cont))
    ∧ (∀ (l : Nat) (v : String) (cont : List Node) (kn vn : Node),
       cont.length % 2 = 0 → kn.value ≠ "name" → kn.value ≠ "namespace" →
       kn.value ≠ "labels" →
       MainGo2.validateMetadata (Node.mk Kind.mapping l v (cont ++ [kn, vn])) =
         MainGo2.validateMetadata (Node.mk Kind.mapping l v cont))
    ∧ (∀ (l : Nat) (v : String) (cont : List Node) (kn vn : Node),
       cont.length % 2 = 0 → kn.value ≠ "os" → kn.value ≠ "containers" →
       MainGo2.validateSpec (Node.mk Kind.mapping l v (cont ++ [kn, vn])) =
         MainGo2.validateSpec (Node.mk Kind.mapping l v cont))
    ∧ (∀ (l : Nat) (v : String) (cont : List Node) (names : List String)
         (kn vn : Node),
       cont.length % 2 = 0 → kn.value ≠ "name" → kn.value ≠ "image" →
       kn.value ≠ "resources" → kn.value ≠ "ports" →
       kn.value ≠ "readinessProbe" → kn.value ≠ "livenessProbe" →
       MainGo2.containerFields (Node.mk Kind.mapping l v (cont ++ [kn, vn])) names =
         MainGo2.containerFields (Node.mk Kind.mapping l v cont) names)
    ∧ (∀ (l : Nat) (v : String) (cont : List Node) (kn vn : Node),
       cont.length % 2 = 0 → kn.value ≠ "containerPort" → kn.value ≠ "protocol" →
       MainGo2.portBody (Node.mk Kind.mapping l v (cont ++ [kn, vn])) =
         MainGo2.portBody (Node.mk Kind.mapping l v cont))
    ∧ (∀ (l : Nat) (v : String) (cont : List Node) (kn vn : Node),
       cont.length % 2 = 0 → kn.value ≠ "httpGet" →
       MainGo2.validateProbe (Node.mk Kind.mapping l v (cont ++ [kn, vn])) =
         MainGo2.validateProbe (Node.mk Kind.mapping l v cont))
    ∧ (∀ (l : Nat) (v : String) (cont : List Node) (kn vn : Node),
       cont.length % 2 = 0 → kn.value ≠ "path" → kn.value ≠ "port" →
       MainGo2.validateHTTPGetAction (Node.mk Kind.mapping l v (cont ++ [kn, vn])) =
         MainGo2.validateHTTPGetAction (Node.mk Kind.mapping l v cont))
    ∧ (∀ (l : Nat) (v : String) (cont : List Node) (kn vn : Node),
       cont.length % 2 = 0 → kn.value ≠ "requests" → kn.value ≠ "limits" →
       MainGo2.validateResources (Node.mk Kind.mapping l v (cont ++ [kn, vn])) =
         MainGo2.validateResources (Node.mk Kind.mapping l v cont)) :=
  ⟨unsupportedResource_mem,
   fun l k v cont kn vn he h1 h2 h3 h4 => frame_podFields l k v cont kn vn he h1 h2 h3 h4,
   fun l v cont kn vn he h1 h2 h3 => frame_metadata l v cont kn vn he h1 h2 h3,
   fun l v cont kn vn he h1 h2 => frame_spec l v cont kn vn he h1 h2,
   fun l v cont names kn vn he h1 h2 h3 h4 h5 h6 =>
     frame_containerFields l v cont names kn vn he h1 h2 h3 h4 h5 h6,
   fun l v cont kn vn he h1 h2 => frame_portBody l v cont kn vn he h1 h2,
   fun l v cont kn vn he h1 => frame_probe l v cont kn vn he h1,
   fun l v cont kn vn he h1 h2 => frame_httpGet l v cont kn vn he h1 h2,
   fun l v cont kn vn he h1 h2 => frame_resources l v cont kn vn he h1 h2⟩

theorem c7_unrecognized_fields_witness :
    ((⟨2, Msg.unsupportedResourceType "requests" "gpu"⟩ : Err) ∈
      MainGo2.validateResourceRequirements (Node.mk Kind.mapping 1 ""
        [Node.mk Kind.scalar 2 "gpu" [], Node.mk Kind.scalar 2 "1" []]) "requests")
    ∧ MainGo2.validateMetadata (Node.mk Kind.mapping 1 ""
        ([] ++ [Node.mk Kind.scalar 2 "annotations" [], Node.mk Kind.scalar 2 "x" []])) =
      MainGo2.validateMetadata (Node.mk Kind.mapping 1 "" []) :=
  ⟨c7_unrecognized_fields.1 1 "" "requests"
      [Node.mk Kind.scalar 2 "gpu" [], Node.mk Kind.scalar 2 "1" []]
      (Node.mk Kind.scalar 2 "gpu" []) (Node.mk Kind.scalar 2 "1" [])
      (by simp) (by decide) (by decide),
   c7_unrecognized_fields.2.2.1 1 "" []
      (Node.mk Kind.scalar 2 "annotations" []) (Node.mk Kind.scalar 2 "x" [])
      rfl (by decide) (by decide) (by decide)⟩
